import Mathlib

/-!
Verification of the LLM provider adapter layer (`llm_adapters.py`).

The Python source is shallowly embedded: strings are `String`/`List Char`,
the process environment is an association list, the TCP probe of the proxy
resolver is an oracle `String → Nat → Bool`, and a transport call that can
raise is a value of `Except String _` injected into the adapter's
`invoke` logic.  Regular-expression matches from the source are translated
into explicit first-match scanning functions over character lists.
-/

namespace LLMAdapters

/-- ASCII decimal digit, the characters matched by the regex class `\d`
on the URLs this program handles. -/
def isDig (c : Char) : Bool :=
  '0' ≤ c && c ≤ '9'

/-- The whitespace characters stripped by Python's `str.strip()`. -/
def isWS (c : Char) : Bool :=
  c = ' ' || c = '\t' || c = '\n' || c = '\r' || c = '\x0b' || c = '\x0c'

/-- `stripHead pat l` removes the pattern `pat` from the front of `l`,
returning the remainder, or `none` when `l` does not start with `pat`. -/
def stripHead : List Char → List Char → Option (List Char)
  | [], l => some l
  | _ :: _, [] => none
  | a :: as, b :: bs => if a = b then stripHead as bs else none

/-- `startsW pat l` tests whether `l` starts with the pattern `pat`. -/
def startsW (pat l : List Char) : Bool :=
  (stripHead pat l).isSome

/-- `subL n h` tests whether `n` occurs as a contiguous run inside `h`;
this embeds Python's `n in h` on strings. -/
def subL (n : List Char) : List Char → Bool
  | [] => n.isEmpty
  | c :: t => startsW n (c :: t) || subL n t

/-- Remove the longest run of characters satisfying `p` from the end. -/
def dropTrailWhile (p : Char → Bool) (l : List Char) : List Char :=
  (l.reverse.dropWhile p).reverse

/-- Remove every trailing occurrence of character `c`; this embeds
Python's `str.rstrip(c)`. -/
def dropTrail (c : Char) (l : List Char) : List Char :=
  dropTrailWhile (· = c) l

/-- Strip whitespace from both ends; this embeds Python's `str.strip()`. -/
def stripWS (l : List Char) : List Char :=
  dropTrailWhile isWS (l.dropWhile isWS)

/-- Does the list end with the character `c`? -/
def endsC (c : Char) (l : List Char) : Bool :=
  l.getLast? = some c

/-- Does the list start with `'v'` then `'/'`? -/
def vSlashHead : List Char → Bool
  | a :: b :: _ => a = 'v' && b = '/'
  | _ => false

/-- Embeds `re.search(r'/v\d+$', url)`: the string ends with `'/'`, `'v'`
and then a nonempty run of digits (read here from the reversed list:
a nonempty digit run, then `'v'`, then `'/'`). -/
def vdEnd (l : List Char) : Bool :=
  let r := l.reverse
  !(r.takeWhile isDig).isEmpty && vSlashHead (r.dropWhile isDig)

/-- The literal `/v1` checked and appended by `check_base_url`. -/
def slashV1 : List Char := ['/', 'v', '1']

/-- List-level body of `check_base_url` from `llm_adapters.py`:
strip whitespace; empty stays empty; a trailing `#` means "strip the
trailing `#` run and use the URL verbatim"; otherwise append `/v1`
(after removing trailing slashes) unless the URL already ends in
`/v<digits>` or contains `/v1`. -/
def cbL (l : List Char) : List Char :=
  let u := stripWS l
  if u.isEmpty then []
  else if endsC '#' u then dropTrail '#' u
  else if vdEnd u then u
  else if subL slashV1 u then u
  else dropTrail '/' u ++ slashV1

/-- `check_base_url` from `llm_adapters.py`, the URL normalizer. -/
def check_base_url (s : String) : String :=
  String.mk (cbL s.toList)

/-! ### Proxy resolver (`detect_and_setup_proxy`)

The process environment `os.environ` is embedded as an association list
with exact-key lookup (POSIX dict semantics), and the TCP reachability
test `socket.connect_ex` as an oracle `probe : host → port → Bool`
(`true` = port open; a probe raising an exception has the same effect in
the source as a nonzero return, continuing the loop). -/

/-- Process environment: key/value pairs, looked up by exact key. -/
abbrev Env := List (String × String)

/-- `os.environ.get(k)`: value of the first binding of `k`, if any. -/
def envGet (e : Env) (k : String) : Option String :=
  (e.find? (fun p => p.1 = k)).map (·.2)

/-- Set `k` to `v`, replacing an existing binding. -/
def envSet : Env → String → String → Env
  | [], k, v => [(k, v)]
  | (k', v') :: t, k, v =>
      if k' = k then (k, v) :: t else (k', v') :: envSet t k v

/-- Python truthiness of `os.environ.get(k)`: a present, nonempty string. -/
def truthy : Option String → Bool
  | none => false
  | some s => !s.isEmpty

/-- Fuel-driven worker for string splitting on a separator. -/
def splitGo (sep : List Char) : Nat → List Char → List Char → List (List Char)
  | 0, l, acc => [acc.reverse ++ l]
  | _ + 1, [], acc => [acc.reverse]
  | f + 1, c :: t, acc =>
      match stripHead sep (c :: t) with
      | some rest => acc.reverse :: splitGo sep f rest []
      | none => splitGo sep f t (c :: acc)

/-- Embeds Python's `str.split(sep)` for a nonempty separator. -/
def splitOnL (sep l : List Char) : List (List Char) :=
  splitGo sep (l.length + 1) l []

/-- Embeds `int(s)` on a plain digit string; `none` models `ValueError`. -/
def toNatStr (l : List Char) : Option Nat :=
  if !l.isEmpty && l.all isDig then
    some (l.foldl (fun n c => 10 * n + (c.toNat - '0'.toNat)) 0)
  else none

/-- The body of one proxy-candidate iteration of `detect_and_setup_proxy`:
take the part after `"://"` (when present), require a `":"`, split into
host and port, parse the port.  `none` models every path on which the
source probes nothing for this candidate (missing colon, unpack or
`int()` failure caught by the `except` clause). -/
def parseHostPort (h : List Char) : Option (String × Nat) :=
  let pu := if subL "://".toList h then
      ((splitOnL "://".toList h).drop 1).headD []
    else h
  if pu.contains ':' then
    match splitOnL [':'] pu with
    | [host, port] =>
        match toNatStr port with
        | some p => some (String.mk host, p)
        | none => none
    | _ => none
  else none

/-- The fixed candidate list `proxy_configs` from the source
(HTTP and HTTPS entries of each dictionary). -/
def proxy_configs : List (String × String) :=
  [ ("http://127.0.0.1:7890", "http://127.0.0.1:7890"),
    ("socks5://127.0.0.1:7891", "socks5://127.0.0.1:7891"),
    ("http://127.0.0.1:8080", "http://127.0.0.1:8080"),
    ("http://127.0.0.1:1080", "http://127.0.0.1:1080") ]

/-- The candidate loop of `detect_and_setup_proxy`.  Returns the result,
the final environment and the number of TCP probes attempted. -/
def proxyLoop (probe : String → Nat → Bool) :
    List (String × String) → Env → Nat → Bool × Env × Nat
  | [], env, n => (false, env, n)
  | (h, s) :: rest, env, n =>
      match parseHostPort h.toList with
      | none => proxyLoop probe rest env n
      | some (host, port) =>
          if probe host port then
            (true,
             envSet (envSet (envSet (envSet env "HTTP_PROXY" h)
               "HTTPS_PROXY" s) "http_proxy" h) "https_proxy" s,
             n + 1)
          else proxyLoop probe rest env (n + 1)

/-- `detect_and_setup_proxy` from `llm_adapters.py`: if `HTTP_PROXY` or
`HTTPS_PROXY` is already truthy in the environment, report success with
no probe; otherwise walk the candidate list, setting all four proxy
variables on the first open port. -/
def detect_and_setup_proxy (env : Env) (probe : String → Nat → Bool) :
    Bool × Env × Nat :=
  if truthy (envGet env "HTTP_PROXY") || truthy (envGet env "HTTPS_PROXY") then
    (true, env, 0)
  else proxyLoop probe proxy_configs env 0

/-! ### Regex scanning for the Azure adapters

Both Azure constructors call `re.match` with a lazy first group.  The
scanner below realizes the lazy-group semantics directly: consume at
least one non-newline character, then stop at the first position where
the following literal matches (`.` in Python's `re` does not match
`'\n'`, hence the newline guard). -/

/-- Lazy-group scan: split `l` as `e ++ lit ++ r` with `e` a nonempty
newline-free run, choosing the shortest such `e` (first match). -/
def lazyFind (lit : List Char) : List Char → Option (List Char × List Char)
  | [] => none
  | c :: t =>
      if c = '\n' then none
      else
        match stripHead lit t with
        | some rest => some ([c], rest)
        | none =>
            match lazyFind lit t with
            | some (e, r) => some (c :: e, r)
            | none => none

/-- Literal `https://`. -/
def httpsLit : List Char := "https://".toList

/-- Literal `/openai/deployments/` from the Azure OpenAI regex. -/
def aoLit1 : List Char := "/openai/deployments/".toList

/-- Literal `/chat/completions?api-version=` from the Azure OpenAI regex. -/
def aoLit2 : List Char := "/chat/completions?api-version=".toList

/-- Embeds
`re.match(r'https://(.+?)/openai/deployments/(.+?)/chat/completions\?api-version=(.+)', url)`:
the two lazy groups take the first (shortest) admissible split and the
final greedy `(.+)` takes the maximal nonempty newline-free run. -/
def azureOpenAIParse (l : List Char) : Option (List Char × List Char × List Char) :=
  (stripHead httpsLit l).bind (fun r1 =>
    (lazyFind aoLit1 r1).bind (fun p1 =>
      (lazyFind aoLit2 p1.2).bind (fun p2 =>
        let v := p2.2.takeWhile (fun c => c ≠ '\n')
        if v.isEmpty then none else some (p1.1, p2.1, v))))

/-- Literal `.services.ai.azure.com` from the Azure AI regex. -/
def aiDomLit : List Char := ".services.ai.azure.com".toList

/-- Literal `/models`. -/
def aiModelsLit : List Char := "/models".toList

/-- Literal `/chat/completions`. -/
def aiChatLit : List Char := "/chat/completions".toList

/-- Literal `?api-version=`. -/
def aiQLit : List Char := "?api-version=".toList

/-- Consume the optional literal `lit` when present (a `(?:lit)?` regex
group, which never fails). -/
def optSkip (lit l : List Char) : List Char :=
  match stripHead lit l with
  | some x => x
  | none => l

/-- Embeds
`re.match(r'https://(.+?)\.services\.ai\.azure\.com(?:/models)?(?:/chat/completions)?(?:\?api-version=(.+))?', url)`:
after the lazy name group and the domain literal, each optional group is
consumed greedily when it is present; anything left over is unmatched
trailing text, which `re.match` ignores because the pattern has no `$`. -/
def azureAIParse (l : List Char) : Option (List Char × Option (List Char)) :=
  (stripHead httpsLit l).bind (fun r1 =>
    (lazyFind aiDomLit r1).bind (fun p =>
      let r4 := optSkip aiChatLit (optSkip aiModelsLit p.2)
      match stripHead aiQLit r4 with
      | some r5 =>
          let v := r5.takeWhile (fun c => c ≠ '\n')
          if v.isEmpty then some (p.1, none) else some (p.1, some v)
      | none => some (p.1, none)))

/-! ### Adapter variants and constructors

Each adapter's `__init__` is embedded by the fields the claims are
about: the URL handed to the transport client, the URL stored on the
adapter, the API key and the model name.  The numeric pass-through
fields (`max_tokens`, `temperature`, `timeout`) are threaded unchanged
by every constructor in the source and carry no claim content, so they
are elided from the records. -/

/-- Configuration of an OpenAI-compatible adapter after construction. -/
structure OACfg where
  clientBaseUrl : String
  storedBaseUrl : String
  apiKey : String
  modelName : String
  deriving DecidableEq, Repr

/-- The constructed provider adapter variants of `llm_adapters.py`. -/
inductive Adapter where
  | deepseek (cfg : OACfg)
  | openai (cfg : OACfg)
  | azureOpenAI (endpoint deployment apiVersion apiKey modelName : String)
  | azureAI (endpoint apiVersion apiKey modelName : String)
  | ollama (cfg : OACfg)
  | mlstudio (cfg : OACfg)
  | gemini (apiKey modelName : String)
  | volcano (cfg : OACfg)
  | silicon (cfg : OACfg)
  | grok (cfg : OACfg)
  deriving DecidableEq, Repr

/-- `DeepSeekAdapter.__init__`: the `ChatOpenAI` client receives
`self.base_url = check_base_url(base_url)`. -/
def DeepSeekAdapter_init (apiKey baseUrl modelName : String) : Adapter :=
  .deepseek ⟨check_base_url baseUrl, check_base_url baseUrl, apiKey, modelName⟩

/-- `OpenAIAdapter.__init__`: same construction as DeepSeek. -/
def OpenAIAdapter_init (apiKey baseUrl modelName : String) : Adapter :=
  .openai ⟨check_base_url baseUrl, check_base_url baseUrl, apiKey, modelName⟩

/-- `OllamaAdapter.__init__`: normalized URL; an api key equal to the
empty string is replaced by the placeholder `'ollama'`. -/
def OllamaAdapter_init (apiKey baseUrl modelName : String) : Adapter :=
  .ollama ⟨check_base_url baseUrl, check_base_url baseUrl,
    if apiKey = "" then "ollama" else apiKey, modelName⟩

/-- `MLStudioAdapter.__init__`: same construction as DeepSeek. -/
def MLStudioAdapter_init (apiKey baseUrl modelName : String) : Adapter :=
  .mlstudio ⟨check_base_url baseUrl, check_base_url baseUrl, apiKey, modelName⟩

/-- `VolcanoEngineAIAdapter.__init__`: stores
`self.base_url = check_base_url(base_url)` but passes the raw `base_url`
parameter to the `OpenAI(...)` client (source line 408). -/
def VolcanoEngineAIAdapter_init (apiKey baseUrl modelName : String) : Adapter :=
  .volcano ⟨baseUrl, check_base_url baseUrl, apiKey, modelName⟩

/-- `SiliconFlowAdapter.__init__`: stores the normalized URL but passes
the raw `base_url` parameter to the `OpenAI(...)` client (line 440). -/
def SiliconFlowAdapter_init (apiKey baseUrl modelName : String) : Adapter :=
  .silicon ⟨baseUrl, check_base_url baseUrl, apiKey, modelName⟩

/-- `GrokAdapter.__init__`: the `OpenAI` client receives the normalized
`self.base_url`. -/
def GrokAdapter_init (apiKey baseUrl modelName : String) : Adapter :=
  .grok ⟨check_base_url baseUrl, check_base_url baseUrl, apiKey, modelName⟩

/-- `GeminiAdapter.__init__`: no URL parsing; the connectivity probe and
proxy-resolution side effects never fail construction and are modelled
where the claims need them (`detect_and_setup_proxy`). -/
def GeminiAdapter_init (apiKey _baseUrl modelName : String) : Adapter :=
  .gemini apiKey modelName

/-- `AzureOpenAIAdapter.__init__`: parse the base URL with the Azure
OpenAI regex or raise `ValueError`; the deployment name becomes the
effective model name (line 265). -/
def AzureOpenAIAdapter_init (apiKey baseUrl _modelName : String) :
    Except String Adapter :=
  match azureOpenAIParse baseUrl.toList with
  | some (e, d, v) =>
      .ok (.azureOpenAI (String.mk (httpsLit ++ e)) (String.mk d)
        (String.mk v) apiKey (String.mk d))
  | none => .error "Invalid Azure OpenAI base_url format"

/-- `AzureAIAdapter.__init__`: parse with the Azure AI regex or raise
`ValueError`; the endpoint is rewritten to
`https://{name}.services.ai.azure.com/models` and a missing api-version
defaults to `2024-05-01-preview`. -/
def AzureAIAdapter_init (apiKey baseUrl modelName : String) :
    Except String Adapter :=
  match azureAIParse baseUrl.toList with
  | some (name, v?) =>
      .ok (.azureAI (String.mk (httpsLit ++ name ++ aiDomLit ++ aiModelsLit))
        (match v? with
         | some v => String.mk v
         | none => "2024-05-01-preview")
        apiKey modelName)
  | none =>
      .error "Invalid Azure AI base_url format. Expected format: https://<endpoint>.services.ai.azure.com/models/chat/completions?api-version=xxx"

instance {ε α : Type} [DecidableEq ε] [DecidableEq α] : DecidableEq (Except ε α) := fun x y =>
  match x, y with
  | .ok a, .ok b =>
      if h : a = b then isTrue (by rw [h]) else isFalse (fun hh => by cases hh; exact h rfl)
  | .error a, .error b =>
      if h : a = b then isTrue (by rw [h]) else isFalse (fun hh => by cases hh; exact h rfl)
  | .ok _, .error _ => isFalse (fun hh => by cases hh)
  | .error _, .ok _ => isFalse (fun hh => by cases hh)

/-- The URL handed to the adapter's transport client at construction. -/
def clientUrlOf : Adapter → String
  | .deepseek c | .openai c | .ollama c | .mlstudio c
  | .volcano c | .silicon c | .grok c => c.clientBaseUrl
  | .azureOpenAI e _ _ _ _ => e
  | .azureAI e _ _ _ => e
  | .gemini _ _ => ""

/-- The `self.base_url` attribute stored on the adapter. -/
def storedUrlOf : Adapter → String
  | .deepseek c | .openai c | .ollama c | .mlstudio c
  | .volcano c | .silicon c | .grok c => c.storedBaseUrl
  | .azureOpenAI e _ _ _ _ => e
  | .azureAI e _ _ _ => e
  | .gemini _ _ => ""

/-- The `self.api_key` attribute stored on the adapter. -/
def apiKeyOf : Adapter → String
  | .deepseek c | .openai c | .ollama c | .mlstudio c
  | .volcano c | .silicon c | .grok c => c.apiKey
  | .azureOpenAI _ _ _ k _ => k
  | .azureAI _ _ k _ => k
  | .gemini k _ => k

/-! ### `invoke`

Each `invoke` method performs one transport call and post-processes the
outcome.  The outcome of the underlying call is injected as a value of
`Except String _`: `.error e` models the call raising an exception with
text `e`, `.ok none` models a falsy (absent) response object, and
`.ok (some r)` a response.  An adapter whose `invoke` has no
`try/except` maps `.error e` to `.error e` (the exception propagates);
one that catches maps it to `.ok ""`. -/

/-- A langchain chat response message (an `AIMessage` with `.content`). -/
structure ChatMsg where
  content : String
  deriving DecidableEq, Repr

/-- A choice-style response (`.choices[i].message.content`). -/
structure ChoiceResp where
  choices : List ChatMsg
  deriving DecidableEq, Repr

/-- A Gemini response (`.text`). -/
structure GemResp where
  text : String
  deriving DecidableEq, Repr

/-- `DeepSeekAdapter.invoke` (lines 131–136): no `try/except`, so an
exception from `self._client.invoke` propagates; a falsy response is
logged and converted to the empty string. -/
def DeepSeekAdapter_invoke : Except String (Option ChatMsg) → Except String String
  | .error e => .error e
  | .ok none => .ok ""
  | .ok (some m) => .ok m.content

/-- `OpenAIAdapter.invoke` (lines 159–164): identical to DeepSeek,
no `try/except`. -/
def OpenAIAdapter_invoke : Except String (Option ChatMsg) → Except String String
  | .error e => .error e
  | .ok none => .ok ""
  | .ok (some m) => .ok m.content

/-- `AzureOpenAIAdapter.invoke` (lines 280–285): no `try/except`. -/
def AzureOpenAIAdapter_invoke : Except String (Option ChatMsg) → Except String String
  | .error e => .error e
  | .ok none => .ok ""
  | .ok (some m) => .ok m.content

/-- `OllamaAdapter.invoke` (lines 311–316): no `try/except`. -/
def OllamaAdapter_invoke : Except String (Option ChatMsg) → Except String String
  | .error e => .error e
  | .ok none => .ok ""
  | .ok (some m) => .ok m.content

/-- `MLStudioAdapter.invoke` (lines 336–345): the whole body is wrapped
in `try/except`, every exception yields the empty string. -/
def MLStudioAdapter_invoke : Except String (Option ChatMsg) → Except String String
  | .error _ => .ok ""
  | .ok none => .ok ""
  | .ok (some m) => .ok m.content

/-- `AzureAIAdapter.invoke` (lines 380–395): catches every exception;
`if response and response.choices` guards the choice extraction. -/
def AzureAIAdapter_invoke : Except String (Option ChoiceResp) → Except String String
  | .error _ => .ok ""
  | .ok none => .ok ""
  | .ok (some r) =>
      match r.choices with
      | [] => .ok ""
      | c :: _ => .ok c.content

/-- `VolcanoEngineAIAdapter.invoke` (lines 412–428): catches every
exception; a truthy response with an empty choice list raises
`IndexError` at `choices[0]`, which the same `except` converts to "". -/
def VolcanoEngineAIAdapter_invoke : Except String (Option ChoiceResp) → Except String String
  | .error _ => .ok ""
  | .ok none => .ok ""
  | .ok (some r) =>
      match r.choices with
      | [] => .ok ""
      | c :: _ => .ok c.content

/-- `SiliconFlowAdapter.invoke` (lines 444–460): identical shape to the
VolcanoEngine variant, catches every exception. -/
def SiliconFlowAdapter_invoke : Except String (Option ChoiceResp) → Except String String
  | .error _ => .ok ""
  | .ok none => .ok ""
  | .ok (some r) =>
      match r.choices with
      | [] => .ok ""
      | c :: _ => .ok c.content

/-- `GrokAdapter.invoke` (lines 480–499): catches every exception;
`if response and response.choices` guards the extraction. -/
def GrokAdapter_invoke : Except String (Option ChoiceResp) → Except String String
  | .error _ => .ok ""
  | .ok none => .ok ""
  | .ok (some r) =>
      match r.choices with
      | [] => .ok ""
      | c :: _ => .ok c.content

/-- `GeminiAdapter.invoke` (lines 208–248): catches every exception
(classifying the message only for logging); `if response and
response.text` treats a falsy response or empty text as "". -/
def GeminiAdapter_invoke : Except String (Option GemResp) → Except String String
  | .error _ => .ok ""
  | .ok none => .ok ""
  | .ok (some r) => if r.text = "" then .ok "" else .ok r.text

/-! ### The adapter factory (`create_llm_adapter`) -/

/-- Embeds Python's `str.strip()`. -/
def pyStrip (s : String) : String :=
  String.mk (stripWS s.toList)

/-- Embeds Python's `str.lower()` on the ASCII range (the only cased
characters among the recognized identifiers). -/
def pyLower (s : String) : String :=
  String.mk (s.toList.map Char.toLower)

/-- The identifiers recognized by the factory's `if/elif` chain. -/
def recognizedIds : List String :=
  ["deepseek", "openai", "azure openai", "azure ai", "ollama",
   "ml studio", "gemini", "阿里云百炼", "火山引擎", "硅基流动", "grok"]

/-- `create_llm_adapter` from `llm_adapters.py`: trim and lower-case the
interface format, dispatch to the matching adapter constructor, and
raise `ValueError` naming the original identifier otherwise.  (The
identifier `阿里云百炼` dispatches to the generic `OpenAIAdapter`.) -/
def create_llm_adapter (interfaceFormat baseUrl modelName apiKey : String) :
    Except String Adapter :=
  let fmt := pyLower (pyStrip interfaceFormat)
  if fmt = "deepseek" then .ok (DeepSeekAdapter_init apiKey baseUrl modelName)
  else if fmt = "openai" then .ok (OpenAIAdapter_init apiKey baseUrl modelName)
  else if fmt = "azure openai" then AzureOpenAIAdapter_init apiKey baseUrl modelName
  else if fmt = "azure ai" then AzureAIAdapter_init apiKey baseUrl modelName
  else if fmt = "ollama" then .ok (OllamaAdapter_init apiKey baseUrl modelName)
  else if fmt = "ml studio" then .ok (MLStudioAdapter_init apiKey baseUrl modelName)
  else if fmt = "gemini" then .ok (GeminiAdapter_init apiKey baseUrl modelName)
  else if fmt = "阿里云百炼" then .ok (OpenAIAdapter_init apiKey baseUrl modelName)
  else if fmt = "火山引擎" then .ok (VolcanoEngineAIAdapter_init apiKey baseUrl modelName)
  else if fmt = "硅基流动" then .ok (SiliconFlowAdapter_init apiKey baseUrl modelName)
  else if fmt = "grok" then .ok (GrokAdapter_init apiKey baseUrl modelName)
  else .error ("Unknown interface_format: " ++ interfaceFormat)

/-! ### Specification-side predicates

These state, independently of the scanning functions above, the shapes
that the spec's sentences describe. -/

/-- The string ends in a path segment of shape `v<digits>`: it splits as
`p ++ "/v" ++ ds` with `ds` a nonempty run of digits. -/
def VEndShape (u : List Char) : Prop :=
  ∃ p ds, ds ≠ [] ∧ (∀ c ∈ ds, isDig c = true) ∧ u = p ++ '/' :: 'v' :: ds

/-- The string contains the substring `/v1` somewhere. -/
def HasV1 (u : List Char) : Prop :=
  ∃ p q, u = p ++ slashV1 ++ q

/-- A base URL of the Azure OpenAI form
`https://{endpoint}/openai/deployments/{deployment}/chat/completions?api-version={version}`
with nonempty placeholder components. -/
def AOShape (url : String) : Prop :=
  ∃ e d v : List Char, e ≠ [] ∧ d ≠ [] ∧ v ≠ [] ∧
    url.toList = httpsLit ++ e ++ aoLit1 ++ d ++ aoLit2 ++ v

/-- A base URL starting with the Azure AI prefix
`https://{name}.services.ai.azure.com` for a nonempty newline-free
`{name}` — exactly the URLs the unanchored Azure AI regex accepts. -/
def AIPreShape (url : String) : Prop :=
  ∃ name rest : List Char, name ≠ [] ∧ (∀ c ∈ name, c ≠ '\n') ∧
    url.toList = httpsLit ++ name ++ aiDomLit ++ rest

/-- Did the constructor succeed (not raise)? -/
def isOkE {ε α : Type} : Except ε α → Bool
  | .ok _ => true
  | .error _ => false

/-- Modelled from the claim's words (C4): is the optional part after the
domain exactly `[?api-version={v}]` with `v` nonempty? -/
def aiQryOk (l : List Char) : Bool :=
  l.isEmpty ||
    (match stripHead aiQLit l with
     | some v => !v.isEmpty
     | none => false)

/-- Modelled from the claim's words (C4): is the part after the domain
exactly `[/models][/chat/completions][?api-version={v}]`? -/
def aiOptQryOk (l : List Char) : Bool :=
  aiQryOk l ||
    (match stripHead aiModelsLit l with
     | some r =>
         aiQryOk r ||
           (match stripHead aiChatLit r with
            | some r2 => aiQryOk r2
            | none => false)
     | none => false) ||
    (match stripHead aiChatLit l with
     | some r => aiQryOk r
     | none => false)

/-- Worker for `azureAIClaimForm`: try every split point for `{name}`. -/
def aiFormGo (nameSeen : Bool) : List Char → Bool
  | [] => false
  | c :: t =>
      (nameSeen &&
        (match stripHead aiDomLit (c :: t) with
         | some r => aiOptQryOk r
         | none => false)) ||
      aiFormGo true t

/-- Modelled from the claim's words (C4), the structured form
`https://{name}.services.ai.azure.com[/models][/chat/completions][?api-version={v}]`
with `{name}` nonempty, matched exactly (no trailing text). -/
def azureAIClaimForm (s : String) : Bool :=
  match stripHead httpsLit s.toList with
  | some r => aiFormGo false r
  | none => false

/-! ### Helper lemmas on the scanning functions -/

theorem stripHead_sound : ∀ {p l r : List Char}, stripHead p l = some r → l = p ++ r := by
  intro p
  induction p with
  | nil => intro l r h; simp only [stripHead, Option.some.injEq] at h; simp [h]
  | cons a as ih =>
      intro l r h
      cases l with
      | nil => simp [stripHead] at h
      | cons b bs =>
          simp only [stripHead] at h
          split at h
          · next hab => subst hab; simpa using ih h
          · exact absurd h (by simp)

theorem stripHead_self_app (p r : List Char) : stripHead p (p ++ r) = some r := by
  induction p with
  | nil => rfl
  | cons a as ih => simp [stripHead, ih]

theorem startsW_self_app (n q : List Char) : startsW n (n ++ q) = true := by
  simp [startsW, stripHead_self_app]

theorem subL_of_app (n p q : List Char) : subL n (p ++ (n ++ q)) = true := by
  induction p with
  | nil =>
      simp only [List.nil_append]
      cases hnq : n ++ q with
      | nil =>
          have hn : n = [] := (List.append_eq_nil.mp hnq).1
          subst hn; rfl
      | cons c t =>
          have h1 : startsW n (c :: t) = true := by rw [← hnq]; exact startsW_self_app n q
          simp [subL, h1]
  | cons a p ih => simp [subL, ih]

theorem subL_sound : ∀ {n h : List Char}, subL n h = true → ∃ p q, h = p ++ n ++ q := by
  intro n h
  induction h with
  | nil =>
      intro hh
      have : n = [] := by simpa [subL, List.isEmpty_iff] using hh
      exact ⟨[], [], by simp [this]⟩
  | cons c t ih =>
      intro hh
      rcases Bool.or_eq_true_iff.mp (by simpa [subL] using hh) with h1 | h2
      · rcases Option.isSome_iff_exists.mp (by simpa [startsW] using h1) with ⟨r, hr⟩
        exact ⟨[], r, by simpa using stripHead_sound hr⟩
      · rcases ih h2 with ⟨p, q, hpq⟩
        exact ⟨c :: p, q, by simp [hpq]⟩

theorem takeWhile_all_app {p : Char → Bool} :
    ∀ (xs : List Char) (y : Char) (ys : List Char), (∀ c ∈ xs, p c = true) → p y = false →
      (xs ++ y :: ys).takeWhile p = xs := by
  intro xs
  induction xs with
  | nil => intro y ys _ hy; simp [List.takeWhile, hy]
  | cons a t ih =>
      intro y ys hx hy
      have ha : p a = true := hx a (by simp)
      simp only [List.cons_append, List.takeWhile, ha]
      show a :: List.takeWhile p (t ++ y :: ys) = a :: t
      rw [ih y ys (fun c hc => hx c (by simp [hc])) hy]

theorem dropWhile_all_app {p : Char → Bool} :
    ∀ (xs : List Char) (y : Char) (ys : List Char), (∀ c ∈ xs, p c = true) → p y = false →
      (xs ++ y :: ys).dropWhile p = y :: ys := by
  intro xs
  induction xs with
  | nil => intro y ys _ hy; simp [List.dropWhile, hy]
  | cons a t ih =>
      intro y ys hx hy
      have ha : p a = true := hx a (by simp)
      simp only [List.cons_append, List.dropWhile, ha]
      exact ih y ys (fun c hc => hx c (by simp [hc])) hy

theorem dropWhile_head_false {p : Char → Bool} :
    ∀ {l : List Char} {c : Char} {t : List Char}, l.dropWhile p = c :: t → p c = false := by
  intro l
  induction l with
  | nil => intro c t h; simp [List.dropWhile] at h
  | cons a as ih =>
      intro c t h
      by_cases ha : p a
      · rw [List.dropWhile_cons_of_pos ha] at h
        exact ih h
      · rw [List.dropWhile_cons_of_neg ha] at h
        cases h
        exact Bool.of_not_eq_true ha

theorem dropTrailWhile_eq (p : Char → Bool) (l : List Char) :
    dropTrailWhile p l = l.rdropWhile p := rfl

theorem dropTrailWhile_front (p : Char → Bool) (l : List Char) :
    ∃ q, l = dropTrailWhile p l ++ q := by
  refine ⟨(l.reverse.takeWhile p).reverse, ?_⟩
  unfold dropTrailWhile
  rw [← List.reverse_append, List.takeWhile_append_dropWhile, List.reverse_reverse]

theorem getLast?_app_right (l m : List Char) (hm : m ≠ []) :
    (l ++ m).getLast? = m.getLast? :=
  List.getLast?_append_of_ne_nil l hm

theorem getLast?_rev_head (w : List Char) : w.reverse.getLast? = w.head? := by
  rw [← List.head?_reverse, List.reverse_reverse]

theorem stripWS_head_false {l : List Char} {c : Char} {t : List Char}
    (h : stripWS l = c :: t) : isWS c = false := by
  unfold stripWS at h
  rcases dropTrailWhile_front isWS (l.dropWhile isWS) with ⟨q, hq⟩
  rw [h] at hq
  exact dropWhile_head_false (c := c) (t := t ++ q) (by simpa using hq)

theorem stripWS_getLast_false {l : List Char} {c : Char}
    (h : (stripWS l).getLast? = some c) : isWS c = false := by
  unfold stripWS dropTrailWhile at h
  rw [getLast?_rev_head] at h
  cases hw : (l.dropWhile isWS).reverse.dropWhile isWS with
  | nil => rw [hw] at h; simp at h
  | cons a t =>
      rw [hw] at h
      simp only [List.head?_cons, Option.some.injEq] at h
      subst h
      exact dropWhile_head_false hw

theorem stripWS_noop {l : List Char}
    (h1 : ∀ c t, l = c :: t → isWS c = false)
    (h2 : ∀ c, l.getLast? = some c → isWS c = false) : stripWS l = l := by
  have hd : l.dropWhile isWS = l := by
    cases hl : l with
    | nil => rfl
    | cons a t => rw [List.dropWhile_cons_of_neg (by simp [h1 a t hl])]
  unfold stripWS
  rw [hd, dropTrailWhile_eq, List.rdropWhile_eq_self_iff]
  intro hl
  have := h2 (l.getLast hl) (List.getLast?_eq_getLast l hl)
  simp [this]

theorem stripWS_idem (l : List Char) : stripWS (stripWS l) = stripWS l :=
  stripWS_noop (fun _ _ hct => stripWS_head_false hct) (fun _ hc => stripWS_getLast_false hc)

theorem dropTrail_getLast_ne (c : Char) (l : List Char) {y : Char}
    (h : (dropTrail c l).getLast? = some y) : y ≠ c := by
  unfold dropTrail dropTrailWhile at h
  rw [getLast?_rev_head] at h
  cases hw : l.reverse.dropWhile (· = c) with
  | nil => rw [hw] at h; simp at h
  | cons a t =>
      rw [hw] at h
      simp only [List.head?_cons, Option.some.injEq] at h
      subst h
      simpa using dropWhile_head_false hw

theorem dropTrail_front (c : Char) (l : List Char) : ∃ q, l = dropTrail c l ++ q :=
  dropTrailWhile_front _ l

theorem vSlashHead_cons (a b : Char) (t : List Char) :
    vSlashHead (a :: b :: t) = (decide (a = 'v') && decide (b = '/')) := rfl

theorem vdEnd_iff (u : List Char) : vdEnd u = true ↔ VEndShape u := by
  constructor
  · intro h
    unfold vdEnd at h
    rcases Bool.and_eq_true_iff.mp h with ⟨h1, h2⟩
    have hds : ∀ x ∈ u.reverse.takeWhile isDig, isDig x = true :=
      fun x hx => List.mem_takeWhile_imp hx
    cases hdrop : u.reverse.dropWhile isDig with
    | nil => rw [hdrop] at h2; simp [vSlashHead] at h2
    | cons a t =>
        cases t with
        | nil => rw [hdrop] at h2; simp [vSlashHead] at h2
        | cons b t2 =>
            rw [hdrop, vSlashHead_cons] at h2
            rcases Bool.and_eq_true_iff.mp h2 with ⟨ha, hb⟩
            have ha : a = 'v' := of_decide_eq_true ha
            have hb : b = '/' := of_decide_eq_true hb
            subst ha; subst hb
            generalize hds0 : u.reverse.takeWhile isDig = ds0 at h1 hds hdrop
            have hsplit : ds0 ++ 'v' :: '/' :: t2 = u.reverse := by
              rw [← hds0, ← hdrop]; exact List.takeWhile_append_dropWhile isDig u.reverse
            refine ⟨t2.reverse, ds0.reverse, ?_, ?_, ?_⟩
            · intro hnil
              rw [List.reverse_eq_nil_iff] at hnil
              rw [hnil] at h1; simp at h1
            · intro c hc
              exact hds c (List.mem_reverse.mp hc)
            · have hu : (ds0 ++ 'v' :: '/' :: t2).reverse = u := by
                rw [hsplit, List.reverse_reverse]
              rw [← hu]
              simp
  · rintro ⟨p, ds, hne, hdig, hu⟩
    have hrev : u.reverse = ds.reverse ++ 'v' :: '/' :: p.reverse := by
      subst hu; simp
    have hdigr : ∀ c ∈ ds.reverse, isDig c = true :=
      fun c hc => hdig c (List.mem_reverse.mp hc)
    have hvnot : isDig 'v' = false := by decide
    show (!(List.takeWhile isDig u.reverse).isEmpty &&
      vSlashHead (List.dropWhile isDig u.reverse)) = true
    rw [hrev, takeWhile_all_app ds.reverse 'v' ('/' :: p.reverse) hdigr hvnot,
      dropWhile_all_app ds.reverse 'v' ('/' :: p.reverse) hdigr hvnot]
    simp [vSlashHead, hne]

theorem hasV1_iff (u : List Char) : subL slashV1 u = true ↔ HasV1 u := by
  constructor
  · intro h
    rcases subL_sound h with ⟨p, q, hpq⟩
    exact ⟨p, q, hpq⟩
  · rintro ⟨p, q, hpq⟩
    subst hpq
    rw [List.append_assoc]
    exact subL_of_app slashV1 p q

theorem cbL_eq (l : List Char) :
    cbL l = (if (stripWS l).isEmpty then []
      else if endsC '#' (stripWS l) then dropTrail '#' (stripWS l)
      else if vdEnd (stripWS l) then stripWS l
      else if subL slashV1 (stripWS l) then stripWS l
      else dropTrail '/' (stripWS l) ++ slashV1) := rfl

theorem endsC_ne_nil {c : Char} {l : List Char} (h : endsC c l = true) : l ≠ [] := by
  intro hnil
  subst hnil
  simp [endsC] at h

theorem isEmpty_false_of_ne {l : List Char} (h : l ≠ []) : l.isEmpty = false := by
  cases l with
  | nil => exact absurd rfl h
  | cons a t => rfl

theorem slashV1_getLast : (slashV1 : List Char).getLast? = some '1' := rfl

theorem cbL_append_facts (x : List Char) :
    (x ++ slashV1).getLast? = some '1' ∧ (x ++ slashV1) ≠ [] := by
  constructor
  · rw [getLast?_app_right x slashV1 (by decide)]
    rfl
  · intro hnil
    have := congrArg List.length hnil
    simp [slashV1] at this

theorem vdEnd_append_slashV1 (x : List Char) : vdEnd (x ++ slashV1) = true := by
  show (!(List.takeWhile isDig (x ++ slashV1).reverse).isEmpty &&
    vSlashHead (List.dropWhile isDig (x ++ slashV1).reverse)) = true
  have hrev : (x ++ slashV1).reverse = '1' :: 'v' :: '/' :: x.reverse := by
    simp [slashV1]
  rw [hrev]
  rw [List.takeWhile_cons_of_pos (by decide), List.takeWhile_cons_of_neg (by decide)]
  rw [List.dropWhile_cons_of_pos (by decide), List.dropWhile_cons_of_neg (by decide)]
  rfl

theorem stripWS_append_slashV1 (l : List Char) :
    stripWS (dropTrail '/' (stripWS l) ++ slashV1) = dropTrail '/' (stripWS l) ++ slashV1 := by
  apply stripWS_noop
  · intro c t hct
    cases hd : dropTrail '/' (stripWS l) with
    | nil =>
        rw [hd] at hct
        simp only [List.nil_append, slashV1] at hct
        cases hct
        decide
    | cons a t' =>
        rw [hd] at hct
        simp only [List.cons_append, List.cons.injEq] at hct
        rcases hct with ⟨hac, -⟩
        subst hac
        rcases dropTrail_front '/' (stripWS l) with ⟨q, hq⟩
        rw [hd] at hq
        exact stripWS_head_false (show stripWS l = a :: (t' ++ q) by simpa using hq)
  · intro c hc
    rw [(cbL_append_facts (dropTrail '/' (stripWS l))).1] at hc
    cases hc
    decide

theorem cbL_idem (l : List Char) (h : endsC '#' (stripWS l) = false) :
    cbL (cbL l) = cbL l := by
  by_cases h0 : stripWS l = []
  · have hc : cbL l = [] := by rw [cbL_eq]; simp [h0]
    rw [hc]
    decide
  · have hE : (stripWS l).isEmpty = false := isEmpty_false_of_ne h0
    have hWS : stripWS (stripWS l) = stripWS l := stripWS_idem l
    by_cases hv : vdEnd (stripWS l) = true
    · have hc : cbL l = stripWS l := by rw [cbL_eq]; simp [hE, h, hv]
      rw [hc, cbL_eq (stripWS l), hWS]
      simp [hE, h, hv]
    · by_cases hs : subL slashV1 (stripWS l) = true
      · have hc : cbL l = stripWS l := by rw [cbL_eq]; simp [hE, h, hv, hs]
        rw [hc, cbL_eq (stripWS l), hWS]
        simp [hE, h, hv, hs]
      · have hc : cbL l = dropTrail '/' (stripWS l) ++ slashV1 := by
          rw [cbL_eq]; simp [hE, h, hv, hs]
        rw [hc]
        have hrne : dropTrail '/' (stripWS l) ++ slashV1 ≠ [] :=
          (cbL_append_facts _).2
        have hrWS := stripWS_append_slashV1 l
        have hrhash : endsC '#' (dropTrail '/' (stripWS l) ++ slashV1) = false := by
          simp [endsC, (cbL_append_facts (dropTrail '/' (stripWS l))).1]
        have hrvd := vdEnd_append_slashV1 (dropTrail '/' (stripWS l))
        rw [cbL_eq (dropTrail '/' (stripWS l) ++ slashV1), hrWS]
        simp [isEmpty_false_of_ne hrne, hrhash, hrvd]

theorem lazyFind_sound {lit : List Char} :
    ∀ {l e r : List Char}, lazyFind lit l = some (e, r) →
      l = e ++ lit ++ r ∧ e ≠ [] ∧ ∀ c ∈ e, c ≠ '\n' := by
  intro l
  induction l with
  | nil => intro e r h; simp [lazyFind] at h
  | cons c t ih =>
      intro e r h
      unfold lazyFind at h
      split at h
      · exact absurd h (by simp)
      · next hcn =>
          rcases hsh : stripHead lit t with _ | rest
          · rw [hsh] at h
            simp only at h
            rcases hlf : lazyFind lit t with _ | er
            · rw [hlf] at h; exact absurd h (by simp)
            · rw [hlf] at h
              rcases er with ⟨e', r'⟩
              simp only [Option.some.injEq, Prod.mk.injEq] at h
              rcases h with ⟨he, hr⟩
              subst he; subst hr
              rcases ih hlf with ⟨h1, _, h3⟩
              refine ⟨by simp [h1], by simp, ?_⟩
              intro x hx
              rcases List.mem_cons.mp hx with hx | hx
              · subst hx; exact hcn
              · exact h3 x hx
          · rw [hsh] at h
            simp only [Option.some.injEq, Prod.mk.injEq] at h
            rcases h with ⟨he, hr⟩
            subst he; subst hr
            refine ⟨by simpa using stripHead_sound hsh, by simp, ?_⟩
            intro x hx
            rcases List.mem_cons.mp hx with hx | hx
            · subst hx; exact hcn
            · simp at hx

theorem lazyFind_exact (c0 : Char) (lt : List Char) {lit : List Char}
    (hlit : lit = c0 :: lt) :
    ∀ (e rest : List Char), e ≠ [] → (∀ c ∈ e, c ≠ '\n') → (∀ c ∈ e, c ≠ c0) →
      lazyFind lit (e ++ lit ++ rest) = some (e, rest) := by
  intro e
  induction e with
  | nil => intro rest h0 _ _; exact absurd rfl h0
  | cons a e' ih =>
      intro rest _ hnl hc0
      have ha : a ≠ '\n' := hnl a (by simp)
      show lazyFind lit (a :: (e' ++ lit ++ rest)) = some (a :: e', rest)
      unfold lazyFind
      rw [if_neg ha]
      cases e' with
      | nil =>
          simp only [List.nil_append]
          rw [stripHead_self_app]
      | cons b t =>
          have hb : b ≠ c0 := hc0 b (by simp)
          have hsh : stripHead lit ((b :: t) ++ lit ++ rest) = none := by
            rw [hlit]
            simp only [List.cons_append, stripHead]
            rw [if_neg (fun hh => hb hh.symm)]
          rw [hsh]
          rw [ih rest (by simp) (fun c hc => hnl c (by simp [hc]))
            (fun c hc => hc0 c (by simp [hc]))]

theorem lazyFind_isSome {lit : List Char} :
    ∀ (e rest : List Char), e ≠ [] → (∀ c ∈ e, c ≠ '\n') →
      (lazyFind lit (e ++ lit ++ rest)).isSome = true := by
  intro e
  induction e with
  | nil => intro rest h0 _; exact absurd rfl h0
  | cons a e' ih =>
      intro rest _ hnl
      have ha : a ≠ '\n' := hnl a (by simp)
      show (lazyFind lit (a :: (e' ++ lit ++ rest))).isSome = true
      unfold lazyFind
      rw [if_neg ha]
      rcases hsh : stripHead lit (e' ++ lit ++ rest) with _ | rest'
      · cases e' with
        | nil =>
            simp only [List.nil_append] at hsh
            rw [stripHead_self_app] at hsh
            exact absurd hsh (by simp)
        | cons b t =>
            have := ih rest (by simp) (fun c hc => hnl c (by simp [hc]))
            rcases hlf : lazyFind lit ((b :: t) ++ lit ++ rest) with _ | er
            · rw [hlf] at this; simp at this
            · rcases er with ⟨e'', r''⟩
              simp [hlf]
      · simp

theorem takeWhile_ne_nl {v : List Char} (h : ∀ c ∈ v, c ≠ '\n') :
    v.takeWhile (fun c => c ≠ '\n') = v :=
  List.takeWhile_eq_self_iff.mpr (fun x hx => by simpa using h x hx)

theorem azureOpenAIParse_pos (e d v : List Char)
    (he : e ≠ []) (he1 : ∀ c ∈ e, c ≠ '/') (he2 : ∀ c ∈ e, c ≠ '\n')
    (hd : d ≠ []) (hd1 : ∀ c ∈ d, c ≠ '/') (hd2 : ∀ c ∈ d, c ≠ '\n')
    (hv : v ≠ []) (hv2 : ∀ c ∈ v, c ≠ '\n') :
    azureOpenAIParse (httpsLit ++ e ++ aoLit1 ++ d ++ aoLit2 ++ v) = some (e, d, v) := by
  unfold azureOpenAIParse
  have h1 : stripHead httpsLit (httpsLit ++ e ++ aoLit1 ++ d ++ aoLit2 ++ v) =
      some (e ++ aoLit1 ++ (d ++ aoLit2 ++ v)) := by
    rw [show httpsLit ++ e ++ aoLit1 ++ d ++ aoLit2 ++ v =
      httpsLit ++ (e ++ aoLit1 ++ (d ++ aoLit2 ++ v)) by simp [List.append_assoc]]
    exact stripHead_self_app httpsLit _
  rw [h1]
  dsimp only [Option.bind]
  rw [lazyFind_exact '/' "openai/deployments/".toList (by decide) e (d ++ aoLit2 ++ v)
    he he2 he1]
  dsimp only [Option.bind]
  rw [lazyFind_exact '/' "chat/completions?api-version=".toList (by decide) d v hd hd2 hd1]
  dsimp only [Option.bind]
  rw [takeWhile_ne_nl hv2]
  rw [if_neg (by simp [List.isEmpty_iff, hv])]

theorem azureOpenAIParse_sound {l e d v : List Char}
    (h : azureOpenAIParse l = some (e, d, v)) :
    ∃ junk, l = httpsLit ++ e ++ aoLit1 ++ d ++ aoLit2 ++ (v ++ junk) ∧
      e ≠ [] ∧ d ≠ [] ∧ v ≠ [] := by
  unfold azureOpenAIParse at h
  rcases hs1 : stripHead httpsLit l with _ | r1 <;> rw [hs1] at h <;>
    dsimp only [Option.bind] at h
  · exact absurd h (by simp)
  · rcases hf1 : lazyFind aoLit1 r1 with _ | er1 <;> rw [hf1] at h <;>
      dsimp only [Option.bind] at h
    · exact absurd h (by simp)
    · rcases er1 with ⟨e', r2⟩
      rcases hf2 : lazyFind aoLit2 r2 with _ | er2 <;> rw [hf2] at h <;>
        dsimp only [Option.bind] at h
      · exact absurd h (by simp)
      · rcases er2 with ⟨d', r3⟩
        dsimp only at h
        split at h
        · exact absurd h (by simp)
        · next hvne =>
            simp only [Option.some.injEq, Prod.mk.injEq] at h
            rcases h with ⟨he', hd', hv'⟩
            subst he'; subst hd'; subst hv'
            rcases lazyFind_sound hf1 with ⟨hr1, he1, _⟩
            rcases lazyFind_sound hf2 with ⟨hr2, hd1, _⟩
            refine ⟨r3.dropWhile (fun c => c ≠ '\n'), ?_, he1, hd1, ?_⟩
            · have hl : l = httpsLit ++ r1 := stripHead_sound hs1
              have hr3 : r3.takeWhile (fun c => c ≠ '\n') ++
                  r3.dropWhile (fun c => c ≠ '\n') = r3 :=
                List.takeWhile_append_dropWhile _ r3
              rw [hl, hr1, hr2, ← hr3]
              simp [List.append_assoc]
            · intro hnil
              rw [hnil] at hvne
              simp at hvne

theorem optSkip_self (lit r : List Char) : optSkip lit (lit ++ r) = r := by
  unfold optSkip
  rw [stripHead_self_app]

theorem optSkip_none {lit l : List Char} (h : stripHead lit l = none) :
    optSkip lit l = l := by
  unfold optSkip
  rw [h]

theorem azureAIParse_core (name rest : List Char)
    (h0 : name ≠ []) (h1 : ∀ c ∈ name, c ≠ '.') (h2 : ∀ c ∈ name, c ≠ '\n') :
    azureAIParse (httpsLit ++ name ++ aiDomLit ++ rest) =
      (match stripHead aiQLit (optSkip aiChatLit (optSkip aiModelsLit rest)) with
       | some r5 =>
           let v := r5.takeWhile (fun c => c ≠ '\n')
           if v.isEmpty then some (name, (none : Option (List Char)))
           else some (name, some v)
       | none => some (name, none)) := by
  unfold azureAIParse
  have hs : stripHead httpsLit (httpsLit ++ name ++ aiDomLit ++ rest) =
      some (name ++ aiDomLit ++ rest) := by
    rw [show httpsLit ++ name ++ aiDomLit ++ rest =
      httpsLit ++ (name ++ aiDomLit ++ rest) by simp [List.append_assoc]]
    exact stripHead_self_app httpsLit _
  rw [hs]
  dsimp only [Option.bind]
  rw [lazyFind_exact '.' "services.ai.azure.com".toList (by decide) name rest h0 h2 h1]

theorem stripHead_models_chat (q : List Char) :
    stripHead aiModelsLit (aiChatLit ++ q) = none := rfl

theorem stripHead_models_q (q : List Char) :
    stripHead aiModelsLit (aiQLit ++ q) = none := rfl

theorem stripHead_chat_q (q : List Char) :
    stripHead aiChatLit (aiQLit ++ q) = none := rfl

theorem azureAIParse_pos (name v opt : List Char)
    (h0 : name ≠ []) (h1 : ∀ c ∈ name, c ≠ '.') (h2 : ∀ c ∈ name, c ≠ '\n')
    (hv : v ≠ []) (hv2 : ∀ c ∈ v, c ≠ '\n')
    (hopt : opt = [] ∨ opt = aiModelsLit ∨ opt = aiChatLit ∨
      opt = aiModelsLit ++ aiChatLit) :
    azureAIParse (httpsLit ++ name ++ aiDomLit ++ opt) = some (name, none) ∧
    azureAIParse (httpsLit ++ name ++ aiDomLit ++ (opt ++ (aiQLit ++ v))) =
      some (name, some v) := by
  have hq : ∀ r4, stripHead aiQLit r4 = some v →
      (match stripHead aiQLit r4 with
       | some r5 =>
           let w := r5.takeWhile (fun c => c ≠ '\n')
           if w.isEmpty then some (name, (none : Option (List Char)))
           else some (name, some w)
       | none => some (name, none)) = some (name, some v) := by
    intro r4 hr4
    rw [hr4]
    dsimp only
    rw [takeWhile_ne_nl hv2, if_neg (by simp [List.isEmpty_iff, hv])]
  rcases hopt with hopt | hopt | hopt | hopt <;> subst hopt
  · refine ⟨?_, ?_⟩
    · rw [azureAIParse_core name [] h0 h1 h2]
      rfl
    · rw [azureAIParse_core name ([] ++ (aiQLit ++ v)) h0 h1 h2]
      rw [show ([] ++ (aiQLit ++ v) : List Char) = aiQLit ++ v by simp]
      rw [optSkip_none (stripHead_models_q v), optSkip_none (stripHead_chat_q v)]
      exact hq _ (stripHead_self_app aiQLit v)
  · refine ⟨?_, ?_⟩
    · rw [azureAIParse_core name aiModelsLit h0 h1 h2]
      rfl
    · rw [azureAIParse_core name (aiModelsLit ++ (aiQLit ++ v)) h0 h1 h2]
      rw [optSkip_self aiModelsLit (aiQLit ++ v),
        optSkip_none (stripHead_chat_q v)]
      exact hq _ (stripHead_self_app aiQLit v)
  · refine ⟨?_, ?_⟩
    · rw [azureAIParse_core name aiChatLit h0 h1 h2]
      rfl
    · rw [azureAIParse_core name (aiChatLit ++ (aiQLit ++ v)) h0 h1 h2]
      rw [optSkip_none (stripHead_models_chat (aiQLit ++ v)),
        optSkip_self aiChatLit (aiQLit ++ v)]
      exact hq _ (stripHead_self_app aiQLit v)
  · refine ⟨?_, ?_⟩
    · rw [azureAIParse_core name (aiModelsLit ++ aiChatLit) h0 h1 h2]
      rfl
    · rw [azureAIParse_core name ((aiModelsLit ++ aiChatLit) ++ (aiQLit ++ v)) h0 h1 h2]
      rw [show (aiModelsLit ++ aiChatLit) ++ (aiQLit ++ v) =
        aiModelsLit ++ (aiChatLit ++ (aiQLit ++ v)) by simp [List.append_assoc]]
      rw [optSkip_self aiModelsLit (aiChatLit ++ (aiQLit ++ v)),
        optSkip_self aiChatLit (aiQLit ++ v)]
      exact hq _ (stripHead_self_app aiQLit v)

theorem azureAIParse_isSome_iff (l : List Char) :
    (azureAIParse l).isSome = true ↔
      ∃ name rest, name ≠ [] ∧ (∀ c ∈ name, c ≠ '\n') ∧
        l = httpsLit ++ name ++ aiDomLit ++ rest := by
  constructor
  · intro h
    unfold azureAIParse at h
    rcases hs1 : stripHead httpsLit l with _ | r1 <;> rw [hs1] at h <;>
      dsimp only [Option.bind] at h
    · simp at h
    · rcases hf : lazyFind aiDomLit r1 with _ | p <;> rw [hf] at h <;>
        dsimp only [Option.bind] at h
      · simp at h
      · rcases p with ⟨name, r2⟩
        rcases lazyFind_sound hf with ⟨hr1, hne, hnl⟩
        exact ⟨name, r2, hne, hnl, by rw [stripHead_sound hs1, hr1]; simp [List.append_assoc]⟩
  · rintro ⟨name, rest, hne, hnl, hl⟩
    subst hl
    unfold azureAIParse
    have hs : stripHead httpsLit (httpsLit ++ name ++ aiDomLit ++ rest) =
        some (name ++ aiDomLit ++ rest) := by
      rw [show httpsLit ++ name ++ aiDomLit ++ rest =
        httpsLit ++ (name ++ aiDomLit ++ rest) by simp [List.append_assoc]]
      exact stripHead_self_app httpsLit _
    rw [hs]
    dsimp only [Option.bind]
    have := @lazyFind_isSome aiDomLit name rest hne hnl
    rcases Option.isSome_iff_exists.mp this with ⟨p, hp⟩
    rw [hp]
    dsimp only [Option.bind]
    rcases stripHead aiQLit (optSkip aiChatLit (optSkip aiModelsLit p.2)) with _ | r5
    · simp
    · dsimp only
      split <;> simp

theorem toList_append (s t : String) : (s ++ t).toList = s.toList ++ t.toList := by
  rcases s with ⟨l1⟩
  rcases t with ⟨l2⟩
  rfl

theorem proxyLoop_false_env (probe : String → Nat → Bool) :
    ∀ (cfgs : List (String × String)) (env : Env) (n : Nat),
      (proxyLoop probe cfgs env n).1 = false → (proxyLoop probe cfgs env n).2.1 = env := by
  intro cfgs
  induction cfgs with
  | nil => intro env n _; rfl
  | cons c rest ih =>
      intro env n h
      revert h
      rcases c with ⟨hs, ss⟩
      unfold proxyLoop
      rcases parseHostPort hs.toList with _ | ⟨host, port⟩
      · exact ih env n
      · dsimp only
        cases probe host port
        · intro h
          rw [if_neg (by decide : ¬(false = true))] at h ⊢
          exact ih env (n + 1) h
        · intro h
          rw [if_pos rfl] at h
          simp at h

/-! ### The claims -/

/-- Claim C1, counterexample: `DeepSeekAdapter.invoke` has no
`try/except`, so a transport exception (here a timeout) propagates to
the caller instead of being converted to the empty string. -/
theorem C1_counterexample :
    DeepSeekAdapter_invoke (.error "connection timed out") = .error "connection timed out" ∧
    DeepSeekAdapter_invoke (.error "connection timed out") ≠ .ok "" := by decide

/-- Claim C1, amended: only the MLStudio, AzureAI, VolcanoEngine,
SiliconFlow, Grok and Gemini variants catch transport exceptions in
`invoke` and return the empty string; for the DeepSeek, OpenAI,
AzureOpenAI and Ollama variants the exception propagates to the caller
unchanged (only a falsy response is converted to the empty string). -/
theorem C1_amended_invoke_error_paths (e : String) :
    DeepSeekAdapter_invoke (.error e) = .error e ∧
    OpenAIAdapter_invoke (.error e) = .error e ∧
    AzureOpenAIAdapter_invoke (.error e) = .error e ∧
    OllamaAdapter_invoke (.error e) = .error e ∧
    MLStudioAdapter_invoke (.error e) = .ok "" ∧
    AzureAIAdapter_invoke (.error e) = .ok "" ∧
    VolcanoEngineAIAdapter_invoke (.error e) = .ok "" ∧
    SiliconFlowAdapter_invoke (.error e) = .ok "" ∧
    GrokAdapter_invoke (.error e) = .ok "" ∧
    GeminiAdapter_invoke (.error e) = .ok "" :=
  ⟨rfl, rfl, rfl, rfl, rfl, rfl, rfl, rfl, rfl, rfl⟩

/-- Claim C2, counterexample: `check_base_url` is not idempotent.  The
`#` escape hatch strips the marker, and a second normalization then
appends `/v1` to the supposedly untouched URL. -/
theorem C2_counterexample :
    check_base_url (check_base_url "https://api.foo.com#") ≠
      check_base_url "https://api.foo.com#" := by decide

/-- Claim C2, amended: `check_base_url` is idempotent on every input
whose trimmed form does not end with the `#` escape character. -/
theorem C2_amended (u : String) (h : endsC '#' (stripWS u.toList) = false) :
    check_base_url (check_base_url u) = check_base_url u :=
  congrArg String.mk (cbL_idem u.toList h)

/-- Witness for C2_amended at a concrete input. -/
theorem C2_amended_witness :
    endsC '#' (stripWS "https://api.foo.com".toList) = false ∧
    check_base_url (check_base_url "https://api.foo.com") =
      check_base_url "https://api.foo.com" :=
  ⟨by decide, C2_amended "https://api.foo.com" (by decide)⟩

/-- Claim C3, counterexample: on a trimmed input ending in `#` the code
strips the whole trailing run of `#` characters (`str.rstrip('#')`),
not exactly one: `"https://a##"` maps to `"https://a"`, while the claim
requires `"https://a#"`. -/
theorem C3_counterexample :
    check_base_url "https://a##" = "https://a" ∧
    ("https://a" : String) ≠ "https://a#" := by decide

/-- Claim C3, amended: `check_base_url` trims whitespace, returns empty
for empty trimmed input, strips the whole trailing run of `#` characters
and returns the remainder verbatim when the trimmed input ends in `#`,
and otherwise appends `/v1` (after stripping trailing slashes) exactly
when the string neither ends in a path segment `/v<digits>` nor contains
the substring `/v1`. -/
theorem cbL_spec (l : List Char) :
    (stripWS l = [] → cbL l = []) ∧
    (endsC '#' (stripWS l) = true → cbL l = dropTrail '#' (stripWS l)) ∧
    (stripWS l ≠ [] → endsC '#' (stripWS l) = false →
      ((VEndShape (stripWS l) ∨ HasV1 (stripWS l)) → cbL l = stripWS l) ∧
      (¬VEndShape (stripWS l) → ¬HasV1 (stripWS l) →
        cbL l = dropTrail '/' (stripWS l) ++ slashV1)) := by
  refine ⟨?_, ?_, ?_⟩
  · intro h
    rw [cbL_eq, h]
    rfl
  · intro h
    rw [cbL_eq]
    simp [isEmpty_false_of_ne (endsC_ne_nil h), h]
  · intro h0 h1
    constructor
    · intro hvor
      rw [cbL_eq]
      by_cases hv : vdEnd (stripWS l) = true
      · simp [isEmpty_false_of_ne h0, h1, hv]
      · have hs : subL slashV1 (stripWS l) = true := by
          rcases hvor with hvs | hh
          · exact absurd ((vdEnd_iff _).mpr hvs) hv
          · exact (hasV1_iff _).mpr hh
        simp [isEmpty_false_of_ne h0, h1, hv, hs]
    · intro hnv hnh
      have hv : vdEnd (stripWS l) = false := by
        cases hvb : vdEnd (stripWS l)
        · rfl
        · exact absurd ((vdEnd_iff _).mp hvb) hnv
      have hs : subL slashV1 (stripWS l) = false := by
        cases hsb : subL slashV1 (stripWS l)
        · rfl
        · exact absurd ((hasV1_iff _).mp hsb) hnh
      rw [cbL_eq]
      simp [isEmpty_false_of_ne h0, h1, hv, hs]

/-- Claim C3, amended, main theorem (statement text above the
counterexample): the full functional characterization of
`check_base_url`, with all-trailing-`#` stripping. -/
theorem C3_amended (s : String) :
    (stripWS s.toList = [] → check_base_url s = "") ∧
    (endsC '#' (stripWS s.toList) = true →
      (check_base_url s).toList = dropTrail '#' (stripWS s.toList)) ∧
    (stripWS s.toList ≠ [] → endsC '#' (stripWS s.toList) = false →
      ((VEndShape (stripWS s.toList) ∨ HasV1 (stripWS s.toList)) →
        (check_base_url s).toList = stripWS s.toList) ∧
      (¬VEndShape (stripWS s.toList) → ¬HasV1 (stripWS s.toList) →
        (check_base_url s).toList = dropTrail '/' (stripWS s.toList) ++ slashV1)) := by
  obtain ⟨a, b, c⟩ := cbL_spec s.toList
  exact ⟨fun h => by show String.mk (cbL s.toList) = ""; rw [a h], b, c⟩

/-- Witness for C3_amended at a concrete input taking the `#` branch. -/
theorem C3_amended_witness :
    endsC '#' (stripWS "b#".toList) = true ∧
    (check_base_url "b#").toList = dropTrail '#' (stripWS "b#".toList) :=
  ⟨by decide, (C3_amended "b#").2.1 (by decide)⟩

/-- Claim C5, counterexample: the environment check is the exact-key
lookup `os.environ.get('HTTP_PROXY') or os.environ.get('HTTPS_PROXY')`,
not a case-insensitive match.  With only the lower-case `http_proxy`
set (non-empty), the resolver still runs all four TCP probes and, with
every port closed, returns false instead of the claimed
probe-free true. -/
theorem C5_counterexample :
    detect_and_setup_proxy [("http_proxy", "http://127.0.0.1:7890")] (fun _ _ => false) =
      (false, [("http_proxy", "http://127.0.0.1:7890")], 4) := by decide

/-- Claim C5, amended: whenever the exact upper-case environment
variable `HTTP_PROXY` or `HTTPS_PROXY` is set non-empty,
`detect_and_setup_proxy` returns true immediately, with zero TCP probes
and an unchanged environment. -/
theorem C5_amended (env : Env) (probe : String → Nat → Bool)
    (h : (truthy (envGet env "HTTP_PROXY") || truthy (envGet env "HTTPS_PROXY")) = true) :
    detect_and_setup_proxy env probe = (true, env, 0) := by
  unfold detect_and_setup_proxy
  rw [if_pos h]

/-- Witness for C5_amended at a concrete environment. -/
theorem C5_amended_witness :
    (truthy (envGet [("HTTPS_PROXY", "http://p")] "HTTP_PROXY") ||
      truthy (envGet [("HTTPS_PROXY", "http://p")] "HTTPS_PROXY")) = true ∧
    detect_and_setup_proxy [("HTTPS_PROXY", "http://p")] (fun _ _ => false) =
      (true, [("HTTPS_PROXY", "http://p")], 0) :=
  ⟨by decide, C5_amended [("HTTPS_PROXY", "http://p")] (fun _ _ => false) (by decide)⟩

/-- Claim C9: `detect_and_setup_proxy` is atomic on failure — whenever
it returns false, the environment is unchanged; proxy variables are
written only on the success path just before returning true. -/
theorem C9_proxy_atomic (env : Env) (probe : String → Nat → Bool)
    (h : (detect_and_setup_proxy env probe).1 = false) :
    (detect_and_setup_proxy env probe).2.1 = env := by
  unfold detect_and_setup_proxy at h ⊢
  by_cases hc : (truthy (envGet env "HTTP_PROXY") || truthy (envGet env "HTTPS_PROXY")) = true
  · rw [if_pos hc] at h
    simp at h
  · rw [if_neg hc] at h ⊢
    exact proxyLoop_false_env probe proxy_configs env 0 h

/-- Witness for C9_proxy_atomic at a concrete environment with no
proxy variable and every probe port closed. -/
theorem C9_proxy_atomic_witness :
    (detect_and_setup_proxy [("PATH", "/bin")] (fun _ _ => false)).1 = false ∧
    (detect_and_setup_proxy [("PATH", "/bin")] (fun _ _ => false)).2.1 = [("PATH", "/bin")] :=
  ⟨by decide, C9_proxy_atomic [("PATH", "/bin")] (fun _ _ => false) (by decide)⟩

/-- Claim C10: `OllamaAdapter.__init__` substitutes the placeholder api
key `'ollama'` exactly when the supplied key is the empty string; any
other key, including a whitespace-only one, is stored unchanged. -/
theorem C10_ollama_key (key url m : String) :
    (key = "" → apiKeyOf (OllamaAdapter_init key url m) = "ollama") ∧
    (key ≠ "" → apiKeyOf (OllamaAdapter_init key url m) = key) := by
  constructor
  · intro h
    subst h
    rfl
  · intro h
    unfold OllamaAdapter_init apiKeyOf
    simp [h]

/-- Witness for C10_ollama_key: the empty key is replaced, a
whitespace-only key is kept verbatim. -/
theorem C10_ollama_key_witness :
    apiKeyOf (OllamaAdapter_init "" "u" "m") = "ollama" ∧
    apiKeyOf (OllamaAdapter_init " " "u" "m") = " " :=
  ⟨(C10_ollama_key "" "u" "m").1 rfl, (C10_ollama_key " " "u" "m").2 (by decide)⟩

/-- Claim C8, code evaluation at the failing input: the VolcanoEngine
and SiliconFlow constructors run the URL normalizer and store its result
in `self.base_url`, yet hand the raw constructor parameter `base_url` to
the `OpenAI(...)` transport client (source lines 408 and 440), while
every sibling OpenAI-compatible adapter hands the client the normalized
URL. -/
theorem C8_code_eval :
    clientUrlOf (VolcanoEngineAIAdapter_init "k" "http://localhost:8000" "m") =
      "http://localhost:8000" ∧
    clientUrlOf (SiliconFlowAdapter_init "k" "http://localhost:8000" "m") =
      "http://localhost:8000" ∧
    storedUrlOf (VolcanoEngineAIAdapter_init "k" "http://localhost:8000" "m") =
      "http://localhost:8000/v1" ∧
    storedUrlOf (SiliconFlowAdapter_init "k" "http://localhost:8000" "m") =
      "http://localhost:8000/v1" ∧
    check_base_url "http://localhost:8000" = "http://localhost:8000/v1" ∧
    clientUrlOf (DeepSeekAdapter_init "k" "http://localhost:8000" "m") =
      "http://localhost:8000/v1" ∧
    clientUrlOf (OpenAIAdapter_init "k" "http://localhost:8000" "m") =
      "http://localhost:8000/v1" ∧
    clientUrlOf (OllamaAdapter_init "k" "http://localhost:8000" "m") =
      "http://localhost:8000/v1" ∧
    clientUrlOf (MLStudioAdapter_init "k" "http://localhost:8000" "m") =
      "http://localhost:8000/v1" ∧
    clientUrlOf (GrokAdapter_init "k" "http://localhost:8000" "m") =
      "http://localhost:8000/v1" ∧
    ("http://localhost:8000" : String) ≠ "http://localhost:8000/v1" := by decide

/-- Claim C7: `create_llm_adapter` matches the backend id after
whitespace-trimming and lower-casing; an unrecognized id raises
`ValueError` whose message names the original identifier (the id is a
substring of the message), and each recognized id dispatches to the
corresponding adapter constructor. -/
theorem C7_factory_dispatch (fmt url model key : String) :
    (pyLower (pyStrip fmt) ∉ recognizedIds →
      create_llm_adapter fmt url model key =
        .error ("Unknown interface_format: " ++ fmt) ∧
      subL fmt.toList ("Unknown interface_format: " ++ fmt).toList = true) ∧
    (pyLower (pyStrip fmt) = "deepseek" →
      create_llm_adapter fmt url model key = .ok (DeepSeekAdapter_init key url model)) ∧
    (pyLower (pyStrip fmt) = "openai" →
      create_llm_adapter fmt url model key = .ok (OpenAIAdapter_init key url model)) ∧
    (pyLower (pyStrip fmt) = "azure openai" →
      create_llm_adapter fmt url model key = AzureOpenAIAdapter_init key url model) ∧
    (pyLower (pyStrip fmt) = "azure ai" →
      create_llm_adapter fmt url model key = AzureAIAdapter_init key url model) ∧
    (pyLower (pyStrip fmt) = "ollama" →
      create_llm_adapter fmt url model key = .ok (OllamaAdapter_init key url model)) ∧
    (pyLower (pyStrip fmt) = "ml studio" →
      create_llm_adapter fmt url model key = .ok (MLStudioAdapter_init key url model)) ∧
    (pyLower (pyStrip fmt) = "gemini" →
      create_llm_adapter fmt url model key = .ok (GeminiAdapter_init key url model)) ∧
    (pyLower (pyStrip fmt) = "阿里云百炼" →
      create_llm_adapter fmt url model key = .ok (OpenAIAdapter_init key url model)) ∧
    (pyLower (pyStrip fmt) = "火山引擎" →
      create_llm_adapter fmt url model key = .ok (VolcanoEngineAIAdapter_init key url model)) ∧
    (pyLower (pyStrip fmt) = "硅基流动" →
      create_llm_adapter fmt url model key = .ok (SiliconFlowAdapter_init key url model)) ∧
    (pyLower (pyStrip fmt) = "grok" →
      create_llm_adapter fmt url model key = .ok (GrokAdapter_init key url model)) := by
  refine ⟨?_, ?_, ?_, ?_, ?_, ?_, ?_, ?_, ?_, ?_, ?_, ?_⟩
  · intro h
    have h1 : pyLower (pyStrip fmt) ≠ "deepseek" := fun he => h (by rw [he]; decide)
    have h2 : pyLower (pyStrip fmt) ≠ "openai" := fun he => h (by rw [he]; decide)
    have h3 : pyLower (pyStrip fmt) ≠ "azure openai" := fun he => h (by rw [he]; decide)
    have h4 : pyLower (pyStrip fmt) ≠ "azure ai" := fun he => h (by rw [he]; decide)
    have h5 : pyLower (pyStrip fmt) ≠ "ollama" := fun he => h (by rw [he]; decide)
    have h6 : pyLower (pyStrip fmt) ≠ "ml studio" := fun he => h (by rw [he]; decide)
    have h7 : pyLower (pyStrip fmt) ≠ "gemini" := fun he => h (by rw [he]; decide)
    have h8 : pyLower (pyStrip fmt) ≠ "阿里云百炼" := fun he => h (by rw [he]; decide)
    have h9 : pyLower (pyStrip fmt) ≠ "火山引擎" := fun he => h (by rw [he]; decide)
    have h10 : pyLower (pyStrip fmt) ≠ "硅基流动" := fun he => h (by rw [he]; decide)
    have h11 : pyLower (pyStrip fmt) ≠ "grok" := fun he => h (by rw [he]; decide)
    constructor
    · simp only [create_llm_adapter]
      rw [if_neg h1, if_neg h2, if_neg h3, if_neg h4, if_neg h5, if_neg h6,
        if_neg h7, if_neg h8, if_neg h9, if_neg h10, if_neg h11]
    · rw [toList_append]
      rw [show ("Unknown interface_format: ").toList ++ fmt.toList =
        ("Unknown interface_format: ").toList ++ (fmt.toList ++ []) by simp]
      exact subL_of_app fmt.toList _ []
  all_goals intro h
  all_goals simp only [create_llm_adapter]
  all_goals rw [h]
  all_goals rfl

/-- Witness for C7_factory_dispatch: an unrecognized backend id yields
the naming error, and a spelled-with-whitespace recognized id
dispatches. -/
theorem C7_factory_dispatch_witness :
    (create_llm_adapter "not-a-real-backend" "u" "m" "k" =
        .error ("Unknown interface_format: " ++ "not-a-real-backend") ∧
      subL "not-a-real-backend".toList
        ("Unknown interface_format: " ++ "not-a-real-backend").toList = true) ∧
    create_llm_adapter " DeepSeek " "u" "m" "k" = .ok (DeepSeekAdapter_init "k" "u" "m") :=
  ⟨(C7_factory_dispatch "not-a-real-backend" "u" "m" "k").1 (by decide),
   (C7_factory_dispatch " DeepSeek " "u" "m" "k").2.1 (by decide)⟩

/-- Claim C6: for every base URL of the form
`https://{endpoint}/openai/deployments/{deployment}/chat/completions?api-version={version}`
— with the URL components read as such: endpoint and deployment
slash-free and all components nonempty and newline-free —
`AzureOpenAIAdapter.__init__` succeeds with
`azure_endpoint = https://{endpoint}`, the given deployment and
api-version, and the deployment as the effective model name; and every
base URL on which construction succeeds is of this shape (so every URL
not of the shape raises the configuration error). -/
theorem C6_azure_openai_ctor (e d v : List Char) (key m : String)
    (he : e ≠ []) (he1 : ∀ c ∈ e, c ≠ '/') (he2 : ∀ c ∈ e, c ≠ '\n')
    (hd : d ≠ []) (hd1 : ∀ c ∈ d, c ≠ '/') (hd2 : ∀ c ∈ d, c ≠ '\n')
    (hv : v ≠ []) (hv2 : ∀ c ∈ v, c ≠ '\n') :
    AzureOpenAIAdapter_init key (String.mk (httpsLit ++ e ++ aoLit1 ++ d ++ aoLit2 ++ v)) m =
      .ok (.azureOpenAI (String.mk (httpsLit ++ e)) (String.mk d) (String.mk v)
        key (String.mk d)) ∧
    ∀ url : String, isOkE (AzureOpenAIAdapter_init key url m) = true → AOShape url := by
  constructor
  · unfold AzureOpenAIAdapter_init
    show (match azureOpenAIParse (httpsLit ++ e ++ aoLit1 ++ d ++ aoLit2 ++ v) with
      | some (e, d, v) =>
          Except.ok (Adapter.azureOpenAI (String.mk (httpsLit ++ e)) (String.mk d)
            (String.mk v) key (String.mk d))
      | none => Except.error "Invalid Azure OpenAI base_url format") =
      Except.ok (Adapter.azureOpenAI (String.mk (httpsLit ++ e)) (String.mk d)
        (String.mk v) key (String.mk d))
    rw [azureOpenAIParse_pos e d v he he1 he2 hd hd1 hd2 hv hv2]
  · intro url hok
    unfold AzureOpenAIAdapter_init at hok
    rcases hp : azureOpenAIParse url.toList with _ | edv
    · rw [hp] at hok
      simp [isOkE] at hok
    · rcases edv with ⟨e', d', v'⟩
      rcases azureOpenAIParse_sound hp with ⟨junk, hurl, he', hd', hv'⟩
      refine ⟨e', d', v' ++ junk, he', hd', ?_, hurl⟩
      intro hnil
      exact hv' (List.append_eq_nil.mp hnil).1

/-- Witness for C6_azure_openai_ctor at the spec's concrete Azure
OpenAI example URL. -/
theorem C6_azure_openai_ctor_witness :
    AzureOpenAIAdapter_init "k"
      (String.mk (httpsLit ++ "res.openai.azure.com".toList ++ aoLit1 ++
        "mydeploy".toList ++ aoLit2 ++ "2024-02-01".toList)) "gpt" =
      .ok (.azureOpenAI (String.mk (httpsLit ++ "res.openai.azure.com".toList))
        (String.mk "mydeploy".toList) (String.mk "2024-02-01".toList)
        "k" (String.mk "mydeploy".toList)) ∧
    AOShape (String.mk (httpsLit ++ "res.openai.azure.com".toList ++ aoLit1 ++
      "mydeploy".toList ++ aoLit2 ++ "2024-02-01".toList)) :=
  have h := C6_azure_openai_ctor "res.openai.azure.com".toList "mydeploy".toList
    "2024-02-01".toList "k" "gpt" (by decide) (by decide) (by decide) (by decide)
    (by decide) (by decide) (by decide) (by decide)
  ⟨h.1, h.2 (String.mk (httpsLit ++ "res.openai.azure.com".toList ++ aoLit1 ++
    "mydeploy".toList ++ aoLit2 ++ "2024-02-01".toList)) (by decide)⟩

/-- Claim C4, counterexample: the Azure AI regex has no end anchor, so a
base URL that is *not* of the structured form (here one with the
trailing junk `/junk`) still constructs successfully instead of raising
a configuration error. -/
theorem C4_counterexample :
    azureAIClaimForm "https://x.services.ai.azure.com/junk" = false ∧
    isOkE (AzureAIAdapter_init "k" "https://x.services.ai.azure.com/junk" "m") = true := by
  decide

/-- Claim C4, amended: every base URL of the structured form (with
`{name}` nonempty, dot-free and newline-free, and `{v}` nonempty and
newline-free) produces the canonical endpoint
`https://{name}.services.ai.azure.com/models` and the given
api-version, defaulting to `2024-05-01-preview` when the query is
omitted; but construction raises exactly when the URL lacks the prefix
`https://{name}.services.ai.azure.com` — trailing text after the
matched portion is ignored, it does not cause a failure. -/
theorem C4_amended (name v opt : List Char) (key m : String)
    (h0 : name ≠ []) (h1 : ∀ c ∈ name, c ≠ '.') (h2 : ∀ c ∈ name, c ≠ '\n')
    (hv : v ≠ []) (hv2 : ∀ c ∈ v, c ≠ '\n')
    (hopt : opt = [] ∨ opt = aiModelsLit ∨ opt = aiChatLit ∨
      opt = aiModelsLit ++ aiChatLit) :
    AzureAIAdapter_init key (String.mk (httpsLit ++ name ++ aiDomLit ++ opt)) m =
      .ok (.azureAI (String.mk (httpsLit ++ name ++ aiDomLit ++ aiModelsLit))
        "2024-05-01-preview" key m) ∧
    AzureAIAdapter_init key
        (String.mk (httpsLit ++ name ++ aiDomLit ++ (opt ++ (aiQLit ++ v)))) m =
      .ok (.azureAI (String.mk (httpsLit ++ name ++ aiDomLit ++ aiModelsLit))
        (String.mk v) key m) ∧
    (∀ url : String, isOkE (AzureAIAdapter_init key url m) = true → AIPreShape url) ∧
    (∀ url : String, AIPreShape url → isOkE (AzureAIAdapter_init key url m) = true) := by
  obtain ⟨hp1, hp2⟩ := azureAIParse_pos name v opt h0 h1 h2 hv hv2 hopt
  refine ⟨?_, ?_, ?_, ?_⟩
  · unfold AzureAIAdapter_init
    show (match azureAIParse (httpsLit ++ name ++ aiDomLit ++ opt) with
      | some (nm, v?) =>
          Except.ok (Adapter.azureAI (String.mk (httpsLit ++ nm ++ aiDomLit ++ aiModelsLit))
            (match v? with
             | some v => String.mk v
             | none => "2024-05-01-preview") key m)
      | none =>
          Except.error "Invalid Azure AI base_url format. Expected format: https://<endpoint>.services.ai.azure.com/models/chat/completions?api-version=xxx") =
      Except.ok (Adapter.azureAI (String.mk (httpsLit ++ name ++ aiDomLit ++ aiModelsLit))
        "2024-05-01-preview" key m)
    rw [hp1]
  · unfold AzureAIAdapter_init
    show (match azureAIParse (httpsLit ++ name ++ aiDomLit ++ (opt ++ (aiQLit ++ v))) with
      | some (nm, v?) =>
          Except.ok (Adapter.azureAI (String.mk (httpsLit ++ nm ++ aiDomLit ++ aiModelsLit))
            (match v? with
             | some v => String.mk v
             | none => "2024-05-01-preview") key m)
      | none =>
          Except.error "Invalid Azure AI base_url format. Expected format: https://<endpoint>.services.ai.azure.com/models/chat/completions?api-version=xxx") =
      Except.ok (Adapter.azureAI (String.mk (httpsLit ++ name ++ aiDomLit ++ aiModelsLit))
        (String.mk v) key m)
    rw [hp2]
  · intro url hok
    unfold AzureAIAdapter_init at hok
    rcases hp : azureAIParse url.toList with _ | p
    · rw [hp] at hok
      simp [isOkE] at hok
    · exact (azureAIParse_isSome_iff url.toList).mp (by rw [hp]; rfl)
  · intro url hsh
    rcases Option.isSome_iff_exists.mp
      ((azureAIParse_isSome_iff url.toList).mpr hsh) with ⟨p, hp⟩
    unfold AzureAIAdapter_init
    rw [hp]
    rcases p with ⟨nm, v?⟩
    rfl

/-- Witness for C4_amended at the spec's concrete Azure AI example URL
(with both optional path parts and the api-version query present) and,
for the shape direction, a bare-domain URL. -/
theorem C4_amended_witness :
    AzureAIAdapter_init "k"
      (String.mk (httpsLit ++ "myres".toList ++ aiDomLit ++
        ((aiModelsLit ++ aiChatLit) ++ (aiQLit ++ "2024-05-01-preview".toList)))) "m" =
      .ok (.azureAI (String.mk (httpsLit ++ "myres".toList ++ aiDomLit ++ aiModelsLit))
        (String.mk "2024-05-01-preview".toList) "k" "m") ∧
    isOkE (AzureAIAdapter_init "k" "https://other.services.ai.azure.com" "m") = true :=
  have h := C4_amended "myres".toList "2024-05-01-preview".toList
    (aiModelsLit ++ aiChatLit) "k" "m" (by decide) (by decide) (by decide)
    (by decide) (by decide) (Or.inr (Or.inr (Or.inr rfl)))
  ⟨h.2.1, h.2.2.2 "https://other.services.ai.azure.com"
    ⟨"other".toList, [], by decide, by decide, by decide⟩⟩

end LLMAdapters

